import Mathlib

/-!
# LifeParser — verification of the free-text command interpreter

Shallow embedding of the LifeParser repository's natural-language command
pipeline: the intent recognizer (`src/src/gameState.js`, class
`IntentRecognizer`), the entity extractor (`src/src/entityExtractor.js`),
the NLP parser (`src/src/parser.js`) and the game engine's dialogue state
machine (`src/unnamed/part_003`, class `GameEngine`).

Conventions of the embedding:
* JavaScript numbers are modelled as `Rat` (all constants in the scoring
  formulas are small decimal fractions, so exact rational arithmetic agrees
  with IEEE doubles on every comparison appearing in the claims).
* JavaScript strings are Lean `String`s; the handful of string operations the
  source uses (`trim`, `toLowerCase`, `includes`, `split(/\s+/)`,
  `startsWith`-style regex anchors) are defined explicitly over `List Char`
  so that they mirror the JS semantics on ASCII input (the game's whole
  vocabulary is ASCII).
* Fallible code (a JS `throw`) is modelled with `Except String`.
* `undefined`/absent object fields are `Option` fields.
-/

namespace LifeParser

/-- ASCII whitespace, the characters matched by the JS `\s` class that can
occur in game input. -/
def isWsChar (c : Char) : Bool :=
  c = ' ' ∨ c = '\t' ∨ c = '\n' ∨ c = '\r' ∨ c = '\x0b' ∨ c = '\x0c'

def isDigitChar (c : Char) : Bool :=
  '0' ≤ c ∧ c ≤ '9'

/-- ASCII lower-casing, as `String.prototype.toLowerCase` acts on ASCII. -/
def lowerChar (c : Char) : Char :=
  if 'A' ≤ c ∧ c ≤ 'Z' then Char.ofNat (c.toNat + 32) else c

/-- JS `s.toLowerCase()` (ASCII fragment). -/
def jsLower (s : String) : String :=
  String.mk (s.toList.map lowerChar)

/-- JS `s.trim()` (ASCII whitespace). -/
def jsTrim (s : String) : String :=
  String.mk (((s.toList.dropWhile isWsChar).reverse.dropWhile isWsChar).reverse)

/-- Does list `hay` start with `needle`? -/
def startsWithL : List Char → List Char → Bool
  | _, [] => true
  | [], _ :: _ => false
  | h :: hs, n :: ns => h = n ∧ startsWithL hs ns

/-- Does `needle` occur as a contiguous sublist of `hay`?  This is JS
`hay.includes(needle)` on the character level. -/
def hasSub : List Char → List Char → Bool
  | hay, needle =>
    startsWithL hay needle ||
      (match hay with
       | [] => false
       | _ :: t => hasSub t needle)

/-- JS `s.includes(sub)`. -/
def jsIncludes (s sub : String) : Bool :=
  hasSub s.toList sub.toList

/-- JS `s.startsWith(p)` (used to model `^`-anchored regexes). -/
def jsStartsWith (s p : String) : Bool :=
  startsWithL s.toList p.toList

/-- Split a list of characters into maximal runs not satisfying `isWsChar`.
For an already-trimmed non-empty string this is exactly JS
`s.split(/\s+/)`.  The fuel argument (initialised to the list length) only
serves termination: every step consumes at least one character. -/
def splitWsF : Nat → List Char → List String
  | 0, _ => []
  | _ + 1, [] => []
  | n + 1, c :: cs =>
    if isWsChar c then splitWsF n cs
    else
      let run := (c :: cs).takeWhile (fun x => ¬ isWsChar x)
      let rest := (c :: cs).dropWhile (fun x => ¬ isWsChar x)
      String.mk run :: splitWsF n rest

/-- JS `input.split(/\s+/)` for trimmed input. -/
def splitWs (s : String) : List String :=
  splitWsF s.toList.length s.toList

/-- Numeric value of a digit character. -/
def digitVal (c : Char) : Nat := c.toNat - '0'.toNat

/-- JS `parseInt` on a string of decimal digits. -/
def parseDigits (ds : List Char) : Nat :=
  ds.foldl (fun acc c => acc * 10 + digitVal c) 0

end LifeParser

namespace LifeParser.EntityExtractor

/-!
## `EntityExtractor.extractAmount` (src/src/entityExtractor.js, lines 152-190)

The JS method scans the text with three global regexes, in this order:
1. `/\$?\s*(\d+(?:,\d{3})*(?:\.\d{2})?)/g`  — plain / comma-grouped / `$` numbers
2. `/(\d+)k/gi`                             — `k` suffix (×1000)
3. `/(\d+)m/gi`                             — `m` suffix (×1000000)

Every positive match is pushed onto a single `amounts` list (floored), and
the FIRST element of that list — i.e. the first positive match of the FIRST
pattern when it matched anything — is returned.
-/

/-- The `(?:,\d{3})*` part: consume maximal repetitions of a comma followed
by exactly three digits, returning (consumed, remainder). -/
def p1Commas : List Char → List Char × List Char
  | ',' :: a :: b :: c :: rest =>
    if isDigitChar a ∧ isDigitChar b ∧ isDigitChar c then
      let (m, r) := p1Commas rest
      (',' :: a :: b :: c :: m, r)
    else ([], ',' :: a :: b :: c :: rest)
  | cs => ([], cs)

/-- The `(?:\.\d{2})?` part. -/
def p1Dec : List Char → List Char × List Char
  | '.' :: a :: b :: rest =>
    if isDigitChar a ∧ isDigitChar b then (['.', a, b], rest)
    else ([], '.' :: a :: b :: rest)
  | cs => ([], cs)

/-- Attempt pattern 1 at the head of `cs`: optional `$`, optional whitespace,
then the captured number.  Returns (capture group, remainder after the whole
match). -/
def p1TryMatch (cs : List Char) : Option (List Char × List Char) :=
  let cs1 := match cs with
    | '$' :: t => t
    | t => t
  let cs2 := cs1.dropWhile isWsChar
  let ds := cs2.takeWhile isDigitChar
  if ds = [] then none
  else
    let (cm, r1) := p1Commas (cs2.dropWhile isDigitChar)
    let (dc, r2) := p1Dec r1
    some (ds ++ cm ++ dc, r2)

/-- `matchAll` for pattern 1: successive non-overlapping leftmost matches.
The fuel argument (initialised to the string length) only serves
termination; each successful match consumes at least one character. -/
def p1ScanF : Nat → List Char → List (List Char)
  | 0, _ => []
  | _ + 1, [] => []
  | n + 1, c :: cs =>
    match p1TryMatch (c :: cs) with
    | some (cap, rest) => cap :: p1ScanF n rest
    | none => p1ScanF n cs

def p1Scan (cs : List Char) : List (List Char) :=
  p1ScanF cs.length cs

/-- `matchAll` for `/(\d+)x/gi` where `x` is the suffix letter (`k` or `m`);
collects the captured digit groups. -/
def suffixScanF (suf : Char) : Nat → List Char → List (List Char)
  | 0, _ => []
  | _ + 1, [] => []
  | n + 1, c :: cs =>
    let ds := (c :: cs).takeWhile isDigitChar
    let after := (c :: cs).dropWhile isDigitChar
    if ds = [] then suffixScanF suf n cs
    else
      match after with
      | k :: rest =>
        if lowerChar k = suf then ds :: suffixScanF suf n rest
        else suffixScanF suf n cs
      | [] => suffixScanF suf n cs

def suffixScan (suf : Char) (cs : List Char) : List (List Char) :=
  suffixScanF suf cs.length cs

/-- JS `parseFloat` on a capture of pattern 1 after `replace(/,/g,'')`:
digits, optionally followed by `.` and two digits. -/
def parseNumCapture (cs : List Char) : Rat :=
  let noCommas := cs.filter (fun c => c ≠ ',')
  let intPart := noCommas.takeWhile isDigitChar
  match noCommas.dropWhile isDigitChar with
  | '.' :: a :: b :: _ => (parseDigits intPart : Rat) + (digitVal a * 10 + digitVal b : Nat) / 100
  | _ => (parseDigits intPart : Rat)

structure AmountEntity where
  value : Int
  confidence : Rat
  deriving Repr, DecidableEq

/-- `EntityExtractor.extractAmount`.  Collects pattern-1 values first, then
`k`-suffixed values (×1000), then `m`-suffixed values (×1000000), keeps the
positive ones (floored to an integer) and returns the first. -/
def extractAmount (text : String) : Option AmountEntity :=
  if text = "" then none
  else
    let cs := text.toList
    let vals1 := (p1Scan cs).map parseNumCapture
    let vals2 := (suffixScan 'k' cs).map (fun d => (parseDigits d : Rat) * 1000)
    let vals3 := (suffixScan 'm' cs).map (fun d => (parseDigits d : Rat) * 1000000)
    let amounts := ((vals1 ++ vals2 ++ vals3).filter (fun v => 0 < v)).map
      (fun v => AmountEntity.mk ⌊v⌋ (9/10))
    amounts.head?

end LifeParser.EntityExtractor

namespace LifeParser.IntentRecognizer

/-!
## `IntentRecognizer` (src/src/gameState.js, lines 39-563)
-/

/-- One entry of the intent vocabulary. -/
structure IntentData where
  keywords : List String
  patterns : List String
  entities : List String
  priority : Rat
  deriving Repr, DecidableEq

/-- The recognition context: `{ locations, npcs }` maps of id → `{name}`.
`none` models an absent (`undefined`) field; `some []` an empty — but in JS
truthy — object. -/
structure Context where
  locations : Option (List (String × String)) := none
  npcs : Option (List (String × String)) := none
  deriving Repr, DecidableEq

/-- The intent vocabulary built in the `IntentRecognizer` constructor,
in JS object insertion order. -/
def defaultIntents : List (String × IntentData) :=
  [ ("move", ⟨["go", "walk", "move", "travel", "head", "run", "enter", "visit",
               "goto", "leave", "exit"],
              ["to", "toward", "towards"], ["location", "direction"], 10⟩),
    ("look", ⟨["look", "examine", "inspect", "observe", "view", "see"],
              ["around", "at the room", "at surroundings"], [], 5⟩),
    ("talk", ⟨["talk", "speak", "chat", "ask", "tell", "discuss", "greet", "converse"],
              ["to", "with"], ["npc", "topic"], 10⟩),
    ("examine", ⟨["check", "view", "show", "display", "examine", "inspect"],
              ["my", "the"], ["target"], 8⟩),
    ("work", ⟨["work", "workout", "exercise", "train"], ["at", "out"], [], 7⟩),
    ("sleep", ⟨["sleep", "rest", "nap", "slumber"], [], ["duration"], 6⟩),
    ("eat", ⟨["eat", "drink", "consume", "have"], ["food", "meal", "something"],
              ["item"], 6⟩),
    ("loan", ⟨["loan", "borrow"], ["take", "get", "request", "for"], ["amount"], 9⟩),
    ("apply", ⟨["apply"], ["for job", "for work", "for position"], [], 10⟩),
    ("promote", ⟨["promote", "promotion", "advance", "advancement"],
              ["get", "request"], [], 8⟩),
    ("careerinfo", ⟨["career", "careerinfo"],
              ["path", "info", "information", "details"], [], 7⟩),
    ("buy", ⟨["buy", "purchase", "acquire", "invest", "open"], [],
              ["target", "business"], 9⟩),
    ("help", ⟨["help", "commands", "info", "?"], [], [], 10⟩),
    ("inventory", ⟨["inventory", "inv", "items", "backpack", "bag"], [], [], 10⟩),
    ("jobs", ⟨["jobs", "careers", "positions", "employment"], [], [], 10⟩),
    ("stats", ⟨["stats", "status", "character", "profile"], [], [], 10⟩),
    ("save", ⟨["save"], ["game"], [], 10⟩),
    ("load", ⟨["load"], ["game"], [], 10⟩) ]

/-- Mutable recognizer state: the intent table and the unknown-input log. -/
structure RecState where
  intents : List (String × IntentData) := defaultIntents
  unknownIntents : List String := []
  deriving Repr, DecidableEq

/-- `this.maxUnknownLog` (constructor constant). -/
def maxUnknownLog : Nat := 50

/-- `calculateIntentScores` (lines 242-292).  For every intent whose keyword
or pattern matched (`matches > 0`), compute the final candidate confidence
`min(confidence * priority/10, 1.0)`.  The returned list pairs intent names
with that confidence, in table order. -/
def calculateIntentScores (intents : List (String × IntentData))
    (input : String) : List (String × Rat) :=
  let tokens := splitWs input
  intents.filterMap fun (nd : String × IntentData) =>
    let d := nd.2
    let kwMatched := d.keywords.filter fun k => tokens.contains k || jsIncludes input k
    let patMatched := d.patterns.filter fun p => jsIncludes input p
    let score : Rat := kwMatched.length + patMatched.length * (1/2)
    if kwMatched.length + patMatched.length > 0 then
      let firstTok := tokens.headD ""
      let score := if d.keywords.contains firstTok then score + 3/10 else score
      let confidence : Rat :=
        if tokens.length = 1 ∧ d.keywords.contains firstTok then 95/100
        else score / ((tokens.length : Rat) * (1/2) + 1)
      some (nd.1, min (confidence * (d.priority / 10)) 1)
    else none

/-- `getBestIntent` (lines 299-311): strict-maximum scan, starting from
`maxConfidence = 0` and no best intent. -/
def getBestIntent (scores : List (String × Rat)) : Option (String × Rat) :=
  scores.foldl
    (fun best e =>
      match best with
      | none => if e.2 > 0 then some e else none
      | some b => if e.2 > b.2 then some e else best)
    none

/-- The regex prefix strip `input.replace(/^(a1|a2|...)\s+/g, '')`: because
the pattern is `^`-anchored (and not multiline), the `g` flag notwithstanding
only one leading `verb + whitespace-run` is removed.  Alternatives are tried
left to right; an alternative only succeeds if whitespace follows it. -/
def stripLeading (alts : List String) (s : String) : String :=
  match alts.find? (fun a =>
      jsStartsWith s a && isWsChar ((s.toList.drop a.toList.length).headD 'x')) with
  | some a => String.mk ((s.toList.drop a.toList.length).dropWhile isWsChar)
  | none => s

/-- `extractLocation` (lines 414-442): strip one leading preposition/verb,
then first key whose id or lower-cased name occurs in the cleaned input,
then first key with a partial word match (words longer than 3 chars). -/
def extractLocation (input : String) (locations : List (String × String)) :
    Option String :=
  let cleanInput := stripLeading ["go", "walk", "move", "travel", "head", "run",
                                  "to", "at", "in"] input
  match locations.find? (fun kv =>
      jsIncludes cleanInput kv.1 || jsIncludes cleanInput (jsLower kv.2)) with
  | some kv => some kv.1
  | none =>
    (locations.find? (fun kv =>
        let keyWords := (splitWs (String.mk (kv.1.toList.map
          (fun c => if c = '_' then ' ' else c))))
        let nameWords := splitWs (jsLower kv.2)
        (keyWords ++ nameWords).any (fun w =>
          w.toList.length > 3 ∧ jsIncludes cleanInput w))).map (·.1)

/-- `extractNPC` (lines 450-478): strip one leading verb/preposition, then
exact id/name containment, then for each input word longer than 3 chars the
first NPC whose id or name contains it. -/
def extractNPC (input : String) (npcs : List (String × String)) :
    Option String :=
  let cleanInput := stripLeading ["talk", "speak", "chat", "ask", "tell",
                                  "to", "with", "the"] input
  match npcs.find? (fun kv =>
      jsIncludes cleanInput kv.1 || jsIncludes cleanInput (jsLower kv.2)) with
  | some kv => some kv.1
  | none =>
    let words := splitWs cleanInput
    (words.filterMap (fun w =>
        if w.toList.length > 3 then
          (npcs.find? (fun kv =>
            jsIncludes kv.1 w || jsIncludes (jsLower kv.2) w)).map (·.1)
        else none)).head?

/-- The regex `/\b(\d+)\b/`: the first maximal digit run that is preceded and
followed by a word boundary (word chars are `[A-Za-z0-9_]`). -/
def isWordChar (c : Char) : Bool :=
  ('a' ≤ c ∧ c ≤ 'z') ∨ ('A' ≤ c ∧ c ≤ 'Z') ∨ isDigitChar c ∨ c = '_'

/-- Scan for `/\b(\d+)\b/`; `prevWord` tracks whether the previous character
was a word character. -/
def findBoundedNumber : Bool → List Char → Option Nat
  | _, [] => none
  | prevWord, c :: cs =>
    if isDigitChar c ∧ ¬ prevWord then
      let ds := (c :: cs).takeWhile isDigitChar
      let after := (c :: cs).dropWhile isDigitChar
      match after with
      | [] => some (parseDigits ds)
      | a :: _ =>
        if ¬ isWordChar a then some (parseDigits ds)
        else findBoundedNumber (isWordChar c) cs
    else findBoundedNumber (isWordChar c) cs

/-- The `/about\s+(.+)/` (and `regarding`) capture: the text after the first
occurrence of the marker word followed by whitespace, provided something
follows; the regex `.+` backtracks into a trailing whitespace run, which
`.trim()` then erases. -/
def afterMarker (marker : String) : List Char → Option String
  | [] => none
  | c :: cs =>
    if startsWithL (c :: cs) marker.toList then
      let r := (c :: cs).drop marker.toList.length
      let ws := r.takeWhile isWsChar
      let rest := r.dropWhile isWsChar
      if ws = [] then afterMarker marker cs
      else if rest ≠ [] then some (jsTrim (String.mk rest))
      else if ws.length ≥ 2 then some ""
      else afterMarker marker cs
    else afterMarker marker cs

/-- An extracted entity value: locations/NPCs resolve to their key, amounts
to an integer, everything else to trimmed text. -/
inductive EntityValue where
  | str (s : String)
  | num (n : Nat)
  deriving Repr, DecidableEq

/-- The keys of `this.entityTypes` (lines 166-192).  `extractEntityType`
returns null immediately for any entity kind not in this table — notably
`business`, `item` and `duration`, making those branches dead code. -/
def entityTypeKeys : List String :=
  ["location", "npc", "direction", "amount", "topic", "target"]

/-- `extractEntityType` (lines 346-406). -/
def extractEntityType (input : String) (entityType : String) (ctx : Context) :
    Option EntityValue :=
  if ¬ entityTypeKeys.contains entityType then none
  else if entityType = "location" then
    match ctx.locations with
    | some locs => (extractLocation input locs).map .str
    | none => none
  else if entityType = "npc" then
    match ctx.npcs with
    | some npcs => (extractNPC input npcs).map .str
    | none => none
  else if entityType = "direction" then
    (["north", "south", "east", "west"].find? (jsIncludes input ·)).map .str
  else if entityType = "amount" then
    (findBoundedNumber false input.toList).map .num
  else if entityType = "topic" then
    (afterMarker "about" input.toList).map .str
  else if entityType = "target" then
    let words := stripLeading ["check", "view", "show", "examine", "inspect",
                               "my", "the"] input
    if jsTrim words ≠ "" then some (.str (jsTrim words)) else none
  else none

/-- `extractEntities` (lines 320-337): one extraction attempt per entity
kind declared by the recognized intent; failures are simply absent. -/
def extractEntities (input : String) (intent : String)
    (intents : List (String × IntentData)) (ctx : Context) :
    List (String × EntityValue) :=
  match (intents.find? (·.1 = intent)).map (·.2) with
  | none => []
  | some d => d.entities.filterMap fun et =>
      (extractEntityType input et ctx).map (et, ·)

/-- The structured command produced by `createCommand` (lines 488-496).
The JS `timestamp: Date.now()` field is ambient I/O and not modelled. -/
structure RecCommand where
  intent : String
  entities : List (String × EntityValue)
  originalInput : String
  confidence : Rat
  deriving Repr, DecidableEq

/-- `logUnknownIntent` (lines 502-517) on the raw log list: exact-string
dedup, append, evict the oldest (`Array.shift`) past 50 entries. -/
def logUnknownList (log : List String) (input : String) : List String :=
  if log.contains input then log
  else if (log ++ [input]).length > maxUnknownLog then (log ++ [input]).tail
  else log ++ [input]

def logUnknownIntent (st : RecState) (input : String) : RecState :=
  { st with unknownIntents := logUnknownList st.unknownIntents input }

/-- `recognize` (lines 205-235).  `input = none` models a non-string
argument (its `originalInput` passes the non-string through; we record `""`
since no claim observes it). -/
def recognize (st : RecState) (input : Option String) (ctx : Context) :
    RecCommand × RecState :=
  match input with
  | none => (⟨"unknown", [], "", 0⟩, st)
  | some s =>
    let normalizedInput := jsLower (jsTrim s)
    if normalizedInput = "" then (⟨"unknown", [], s, 0⟩, st)
    else
      let intentScores := calculateIntentScores st.intents normalizedInput
      match getBestIntent intentScores with
      | none => (⟨"unknown", [], s, 0⟩, logUnknownIntent st s)
      | some best =>
        if best.2 < 3/10 then (⟨"unknown", [], s, 0⟩, logUnknownIntent st s)
        else
          let entities := extractEntities normalizedInput best.1 st.intents ctx
          (⟨best.1, entities, s, best.2⟩, st)

/-- The argument object of `addIntent`; `none` fields model absent (or, for
`keywords`, non-array) values — both rejected by the same validation. -/
structure RawIntentData where
  keywords : Option (List String) := none
  patterns : Option (List String) := none
  entities : Option (List String) := none
  priority : Option Rat := none
  deriving Repr, DecidableEq

/-- JS object-key update: replace in place if the key exists, else append. -/
def setEntry (tbl : List (String × IntentData)) (name : String)
    (d : IntentData) : List (String × IntentData) :=
  if tbl.any (·.1 = name) then
    tbl.map (fun kv => if kv.1 = name then (name, d) else kv)
  else tbl ++ [(name, d)]

/-- `addIntent` (lines 539-554).  An empty name models a falsy
`intentName`; a `.error` result models the thrown `Error` (the table is
left untouched).  `priority || 5` also maps an explicit 0 to 5. -/
def addIntent (tbl : List (String × IntentData)) (intentName : String)
    (intentData : Option RawIntentData) :
    Except String (List (String × IntentData)) :=
  if intentName = "" ∨ intentData = none then
    .error "Intent name and data are required"
  else
    match intentData with
    | none => .error "Intent name and data are required"
    | some d =>
      match d.keywords with
      | none => .error "Intent must have keywords array"
      | some kws =>
        .ok (setEntry tbl intentName
          ⟨kws, d.patterns.getD [], d.entities.getD [],
           match d.priority with
           | none => 5
           | some p => if p = 0 then 5 else p⟩)

end LifeParser.IntentRecognizer

namespace LifeParser.EntityExtractor

/-!
## The remaining `EntityExtractor` methods used by the parser
(src/src/entityExtractor.js)
-/

/-- The constructor's stop-word set. -/
def stopWords : List String :=
  ["a", "an", "the", "to", "at", "in", "on", "for", "with", "from", "my",
   "your", "is", "are", "was", "were", "can", "could", "should", "would"]

/-- `extractSignificantWords` (lines 313-320). -/
def extractSignificantWords (text : String) : List String :=
  (splitWs (jsLower text)).filter fun w =>
    w.toList.length > 2 ∧ ¬ stopWords.contains w

structure NPCEntity where
  key : String
  name : String
  confidence : Rat
  deriving Repr, DecidableEq

/-- Split a lower-cased key on underscores (JS `key.split('_')`). -/
def splitUnderscore (s : String) : List String :=
  splitWsF s.toList.length (s.toList.map (fun c => if c = '_' then ' ' else c))

/-- `EntityExtractor.extractNPC` (lines 96-145): a fold over the NPC table
keeping the best (strictly improving) match.  Note the source compares the
raw length-ratio against `maxConfidence` but stores the boosted
`min(ratio + bonus, 1)`. -/
def eeExtractNPC (text : String) (npcs : Option (List (String × String))) :
    Option NPCEntity :=
  if text = "" then none
  else match npcs with
  | none => none
  | some npcs =>
    let normalized := jsTrim (jsLower text)
    let len : Rat := normalized.toList.length
    let step := fun (acc : Rat × Option (String × String)) (kv : String × String) =>
      let npcName := jsLower kv.2
      let npcKey := jsLower kv.1
      let acc :=
        if jsIncludes normalized npcKey then
          let conf : Rat := (npcKey.toList.length : Rat) / len
          if conf > acc.1 then (min (conf + 1/2) 1, some kv) else acc
        else acc
      let acc :=
        if jsIncludes normalized npcName then
          let conf : Rat := (npcName.toList.length : Rat) / len
          if conf > acc.1 then (min (conf + 3/10) 1, some kv) else acc
        else acc
      let words := extractSignificantWords normalized
      let npcWords := splitUnderscore npcKey
      if words.any (fun w =>
          w.toList.length > 3 ∧ npcWords.any (fun nw => jsIncludes nw w)) then
        if (6/10 : Rat) > acc.1 then ((6 : Rat)/10, some kv) else acc
      else acc
    let res := npcs.foldl step ((0 : Rat), none)
    match res.2 with
    | some kv => if res.1 > 2/5 then some ⟨kv.1, kv.2, res.1⟩ else none
    | none => none

structure TargetEntity where
  value : String
  confidence : Rat
  deriving Repr, DecidableEq

/-- `EntityExtractor.extractTarget` (lines 230-249): strip the intent verb or
a generic command word (one `^`-anchored replacement) and return the trimmed
remainder if non-empty. -/
def eeExtractTarget (text : String) (intentVerb : String) : Option TargetEntity :=
  if text = "" then none
  else
    let normalized := jsTrim (jsLower text)
    let cleaned := jsTrim (IntentRecognizer.stripLeading
      ([intentVerb] ++ ["check", "view", "show", "examine", "inspect", "my", "the"])
      normalized)
    if cleaned ≠ "" then some ⟨cleaned, 8/10⟩ else none

end LifeParser.EntityExtractor

namespace LifeParser.NLPParser

open LifeParser.IntentRecognizer LifeParser.EntityExtractor

/-!
## `NLPParser` (src/src/parser.js)

The parser owns an `IntentRecognizer` and an `EntityExtractor`; its context
is built from the `dataLoader` content tables (locations always, NPCs only
once data is loaded), which we pass as parameters.
-/

/-- The legacy command format produced by `convertToLegacyFormat`; absent
fields are `none`. -/
structure LegacyCommand where
  action : String
  originalInput : Option String := none
  confidence : Option Rat := none
  target : Option String := none
  direction : Option String := none
  topic : Option String := none
  duration : Option Nat := none
  amount : Option Int := none
  input : Option String := none
  deriving Repr, DecidableEq

/-- JS truthiness of an extracted entity value (`""` and `0` are falsy). -/
def EntityValue.truthy : EntityValue → Bool
  | .str s => s ≠ ""
  | .num n => n ≠ 0

/-- `entities.x` used in a JS `if`: present and truthy. -/
def lookupTruthy (es : List (String × EntityValue)) (k : String) :
    Option EntityValue :=
  match (es.find? (·.1 = k)).map (·.2) with
  | some v => if EntityValue.truthy v then some v else none
  | none => none

def asStr : Option EntityValue → Option String
  | some (.str s) => some s
  | _ => none

/-- `findClosestLocation` (lines 249-283). -/
def findClosestLocation (locs : List (String × String)) (input : Option String) :
    Option String :=
  match input with
  | none => none
  | some s =>
    if s = "" then none
    else
      let normalized := jsLower s
      match locs.find? (fun kv =>
          jsIncludes normalized kv.1 || jsIncludes kv.1 normalized) with
      | some kv => some kv.1
      | none =>
        match locs.find? (fun kv => jsIncludes normalized (jsLower kv.2)) with
        | some kv => some kv.1
        | none =>
          ((splitWs normalized).filterMap (fun w =>
            if w.toList.length > 3 then
              (locs.find? (fun kv => jsIncludes kv.1 w)).map (·.1)
            else none)).head?

/-- `convertToLegacyFormat` (lines 108-242).  The `eat` branch evaluates the
undeclared identifiers `pattern` and `match` (left over from the old
regex-table parser), which in an ES module throws a `ReferenceError`; we
model the throw with `Except.error`.  The `sleep` and `buy`/`eat` entity
reads of `duration`, `item` and `business` can never be truthy:
those kinds are not `entityTypes` keys, so `extractEntityType` always
returns null for them (lemma `extractEntityType_dead_kind`). -/
def convertToLegacyFormat (locs : List (String × String))
    (recognized : RecCommand) (ctx : Context) : Except String LegacyCommand :=
  let es := recognized.entities
  let base : LegacyCommand :=
    { action := recognized.intent,
      originalInput := some recognized.originalInput,
      confidence := some recognized.confidence }
  match recognized.intent with
  | "move" =>
    match asStr (lookupTruthy es "location") with
    | some l => .ok { base with target := some l }
    | none =>
      match asStr (lookupTruthy es "direction") with
      | some d => .ok { base with direction := some d }
      | none =>
        .ok { base with target := findClosestLocation locs recognized.originalInput }
  | "talk" =>
    let withTarget :=
      match asStr (lookupTruthy es "npc") with
      | some n => { base with target := some n }
      | none =>
        match eeExtractNPC recognized.originalInput ctx.npcs with
        | some e => { base with target := some e.key }
        | none => base
    match asStr (lookupTruthy es "topic") with
    | some t => .ok { withTarget with topic := some t }
    | none => .ok withTarget
  | "examine" =>
    match asStr (lookupTruthy es "target") with
    | some t => .ok { base with target := some t }
    | none =>
      match eeExtractTarget recognized.originalInput "examine" with
      | some e => .ok { base with target := some e.value }
      | none => .ok base
  | "look" => .ok { base with target := some "room" }
  | "work" => .ok { base with target := some "current" }
  | "sleep" => .ok { base with duration := some 8 }
  | "eat" => .error "ReferenceError: pattern is not defined"
  | "loan" =>
    match lookupTruthy es "amount" with
    | some (.num n) => .ok { base with amount := some (n : Int) }
    | _ =>
      match extractAmount recognized.originalInput with
      | some a => .ok { base with amount := some a.value }
      | none => .ok base
  | "apply" => .ok { base with target := some "job" }
  | "buy" =>
    match asStr (lookupTruthy es "target") with
    | some t => .ok { base with target := some t }
    | none =>
      match eeExtractTarget recognized.originalInput "buy" with
      | some e => .ok { base with target := some e.value }
      | none => .ok base
  | "unknown" => .ok { base with input := some (jsLower recognized.originalInput) }
  | _ => .ok base

/-- `NLPParser.parse` (lines 22-40).  `locs`/`npcs` are the `dataLoader`
content tables used by `buildContext`; `input = none` models a non-string
argument. -/
def parse (locs : List (String × String)) (npcs : Option (List (String × String)))
    (st : RecState) (input : Option String) :
    Except String (LegacyCommand × RecState) :=
  match input with
  | none => .ok ({ action := "unknown", input := some "" }, st)
  | some raw =>
    let trimmedInput := jsTrim raw
    if trimmedInput = "" then .ok ({ action := "unknown", input := some "" }, st)
    else
      let ctx : Context := { locations := some locs, npcs := npcs }
      let (recognized, st') := recognize st (some trimmedInput) ctx
      (convertToLegacyFormat locs recognized ctx).map (·, st')

end LifeParser.NLPParser

namespace LifeParser.GameEngine

open LifeParser.IntentRecognizer LifeParser.NLPParser

/-!
## `GameEngine` (src/unnamed/part_003): the dialogue state machine

The engine's observable behaviour is modelled as a state transition plus a
trace of effects.  Output calls are recorded verbatim; the simulation
game-rule handlers (`handleConversation`, `handleBuy`, `handleLoan`,
`handleEat`, …) are — per spec §1 — external collaborators of the
interpreter core, so their invocation is recorded as an opaque dispatch
effect.  `handleMovement` is embedded in full because the dialogue
round-trip claim observes its target resolution.  `updateUI`, `autoSave`
and `checkRandomEvents` are ambient I/O (DOM, storage, `Math.random`); they
dispatch no commands and never touch the pending dialogue state, and are
not modelled.
-/

/-- One observable step of the engine. -/
inductive Effect where
  /-- `this.output(msg, kind)`. -/
  | out (msg : String) (kind : String)
  /-- `this.describeLocation()` at the given current location (pure output
  rendered from content data). -/
  | describe (loc : String)
  /-- invocation of the movement handler's game-rule part with the canonical
  command: action `move` and the already-resolved target location. -/
  | dispatch (action : String) (resolvedTarget : Option String)
  /-- invocation of one of the other simulation handlers with its command. -/
  | handler (action : String) (c : LegacyCommand)
  /-- `executeConfirmedAction(action, details)`. -/
  | confirmedAction (action : String) (details : List (String × String))
  /-- `executeYesNoCallback(callbackType, context)`. -/
  | yesNoCallback (cb : String)
  deriving Repr, DecidableEq

/-- Does the effect hand a command to the simulation (handler invocation,
confirmed action, or yes/no callback)? -/
def Effect.dispatches : Effect → Bool
  | .out _ _ => false
  | .describe _ => false
  | _ => true

/-- `event.context`: the union of the context fields used by the four
dialogue kinds.  `details` and `existingData` are passed through opaquely
(the repo never populates `existingData`); absent fields default. -/
structure EventContext where
  action : String := ""
  missingEntity : String := ""
  existingData : List (String × String) := []
  details : List (String × String) := []
  options : List String := []
  onConfirm : Option String := none
  onCancel : Option String := none
  deriving Repr, DecidableEq

/-- `gameState.pendingEvent`. -/
structure DialogueEvent where
  type : String
  context : EventContext := {}
  prompt : Option String := none
  deriving Repr, DecidableEq

/-- The character fields touched by the embedded engine paths; initial
values from `src/src/gameState.js`. -/
structure Character where
  day : Nat := 1
  hour : Nat := 8
  minute : Nat := 0
  money : Int := 500
  health : Int := 100
  energy : Int := 100
  hunger : Int := 30
  deriving Repr, DecidableEq

/-- The engine-visible game state. -/
structure EngineState where
  character : Character := {}
  currentLocation : String := "home"
  pendingEvent : Option DialogueEvent := none
  recognizer : RecState := {}
  commandHistory : List String := []
  deriving Repr, DecidableEq

def modifyEnergy (c : Character) (amount : Int) : Character :=
  { c with energy := max 0 (min 100 (c.energy + amount)) }

def modifyHealth (c : Character) (amount : Int) : Character :=
  { c with health := max 0 (min 100 (c.health + amount)) }

def modifyHunger (c : Character) (amount : Int) : Character :=
  let c := { c with hunger := max 0 (min 100 (c.hunger + amount)) }
  if c.hunger ≥ 80 then modifyHealth c (-5) else c

/-- `advanceTime(minutes)`: roll minutes into hours and days, then apply the
per-hour energy/hunger drain.  The end-of-day business settlement that runs
on a day rollover is a simulation rule (spec §1, out of scope: revenue
formulas); it only adjusts money and emits reports, and no claim trace
crosses a day boundary. -/
def advanceTime (c : Character) (minutes : Nat) : Character :=
  let totalMin := c.minute + minutes
  let hour := c.hour + totalMin / 60
  let c := { c with minute := totalMin % 60, hour := hour % 24,
                    day := c.day + hour / 24 }
  let hoursPassed := minutes / 60
  modifyHunger (modifyEnergy c (-(hoursPassed : Int) * 2)) ((hoursPassed : Int) * 3)

structure LocationInfo where
  name : String
  exits : List String
  deriving Repr, DecidableEq

/-- Modelled from the spec: the location content (`data/locations.json`,
served by `dataLoader`) is not under `src/`; ids, display names and the exit
map are taken from the in-repo command reference (`src/unnamed/part_000`):
five locations with `street` as the hub (`home - street - cafe`, gym and
bank off the street). -/
def docLocations : List (String × LocationInfo) :=
  [ ("home", ⟨"Your Apartment", ["street"]⟩),
    ("street", ⟨"Main Street", ["home", "cafe", "gym", "bank"]⟩),
    ("cafe", ⟨"Coffee Bean Café", ["street"]⟩),
    ("gym", ⟨"24/7 Fitness Gym", ["street"]⟩),
    ("bank", ⟨"First National Bank", ["street"]⟩) ]

/-- The `id → {name}` view of the location table handed to the parser. -/
def docLocs : List (String × String) :=
  docLocations.map fun kv => (kv.1, kv.2.name)

/-- `locations[key]` (total lookup; every location key reached in the
embedded paths is present in the table). -/
def locInfo (key : String) : LocationInfo :=
  ((docLocations.find? (·.1 = key)).map (·.2)).getD ⟨"", []⟩

/-- `setDialogueState(type, context, prompt)` (part_003, lines 385-395). -/
def setDialogueState (st : EngineState) (type : String) (ctx : EventContext)
    (prompt : String) : EngineState × List Effect :=
  ({ st with pendingEvent := some ⟨type, ctx, some prompt⟩ },
   if prompt ≠ "" then [.out prompt "system"] else [])

/-- `clearDialogueState` (lines 375-377). -/
def clearDialogueState (st : EngineState) : EngineState :=
  { st with pendingEvent := none }

/-- `handleMovement` (lines 609-649). -/
def handleMovement (st : EngineState) (c : LegacyCommand) :
    EngineState × List Effect :=
  let currentLoc := locInfo st.currentLocation
  let exitsMsg := "Available exits: " ++ String.intercalate ", " currentLoc.exits
  match c.target with
  | none =>
    setDialogueState st "incomplete_command"
      { action := "move", missingEntity := "target" }
      ("Where would you like to go?\n" ++ exitsMsg)
  | some t =>
    if t = "" then
      -- a present-but-empty target is falsy in JS and also prompts
      setDialogueState st "incomplete_command"
        { action := "move", missingEntity := "target" }
        ("Where would you like to go?\n" ++ exitsMsg)
    else
      let targetLocation := findClosestLocation docLocs (some t)
      let dispatched := [Effect.dispatch "move" targetLocation]
      match targetLocation with
      | none =>
        (st, dispatched ++
          [.out "You can't go there from here." "error", .out exitsMsg "system"])
      | some r =>
        if ¬ currentLoc.exits.contains r then
          (st, dispatched ++
            [.out ("You can't reach " ++ (locInfo r).name ++ " from here.") "error",
             .out exitsMsg "system"])
        else
          let st' := { st with currentLocation := r,
                               character := modifyEnergy (advanceTime st.character 15) (-5) }
          (st', dispatched ++
            [.out ("You travel to " ++ (locInfo r).name ++ ".") "success",
             .out "" "description", .describe r])

/-- Assignment of a dynamically-named command field
(`[missingEntity]: value`, and `Object.assign` with `existingData`).  Only
field names the embedded handlers read are mapped; an unknown name adds a
key no handler ever reads, leaving observable behaviour unchanged. -/
def setField (c : LegacyCommand) (name v : String) : LegacyCommand :=
  if name = "action" then { c with action := v }
  else if name = "target" then { c with target := some v }
  else if name = "direction" then { c with direction := some v }
  else if name = "topic" then { c with topic := some v }
  else if name = "input" then { c with input := some v }
  else c

def applyData (c : LegacyCommand) (data : List (String × String)) : LegacyCommand :=
  data.foldl (fun c kv => setField c kv.1 kv.2) c

/-- `executeCommand` (lines 401-421): route a completed command to its
handler.  Movement is embedded; the other four handlers are simulation
rules recorded as dispatch effects. -/
def executeCommand (st : EngineState) (c : LegacyCommand) :
    EngineState × List Effect :=
  match c.action with
  | "move" => handleMovement st c
  | "talk" => (st, [.handler "talk" c])
  | "buy" => (st, [.handler "buy" c])
  | "loan" => (st, [.handler "loan" c])
  | "eat" => (st, [.handler "eat" c])
  | a => (st, [.out ("Cannot complete command: " ++ a) "error"])

/-- `handleIncompleteCommand` (lines 270-291): parse the follow-up input,
take its `target` (or, when falsy, the raw trimmed input) as the value of
the missing entity, merge, clear the dialogue state and execute. -/
def handleIncompleteCommand (npcs : Option (List (String × String)))
    (st : EngineState) (input : String) (ev : DialogueEvent) :
    Except String (EngineState × List Effect) := do
  let (command, rec') ← parse docLocs npcs st.recognizer (some input)
  let v := match command.target with
    | some t => if t = "" then jsTrim input else t
    | none => jsTrim input
  let completeCommand := setField { action := ev.context.action } ev.context.missingEntity v
  let completeCommand := applyData completeCommand ev.context.existingData
  let st := clearDialogueState { st with recognizer := rec' }
  pure (executeCommand st completeCommand)

/-- `handleConfirmation` (lines 298-311). -/
def handleConfirmation (st : EngineState) (input : String) (ev : DialogueEvent) :
    EngineState × List Effect :=
  let response := jsLower (jsTrim input)
  if response = "yes" ∨ response = "y" then
    (clearDialogueState st, [.confirmedAction ev.context.action ev.context.details])
  else if response = "no" ∨ response = "n" then
    (clearDialogueState st, [.out "Action cancelled." "system"])
  else
    (st, [.out "Please answer yes or no." "error"])

/-- `executeWithClarification` (lines 451-463). -/
def executeWithClarification (st : EngineState) (action selected : String)
    (ctx : EventContext) : EngineState × List Effect :=
  executeCommand st (applyData { action := action, target := some selected }
    ctx.existingData)

/-- The `/^(\d+)$/` numeric-selection match. -/
def parseIndexSel (r : String) : Option Nat :=
  if r ≠ "" ∧ r.toList.all isDigitChar then some (parseDigits r.toList) else none

/-- `handleClarification` (lines 318-345): a 1-based in-range numeric
selection, else an exact / containment text match against the options, else
a re-prompt without leaving the state. -/
def handleClarification (st : EngineState) (input : String) (ev : DialogueEvent) :
    EngineState × List Effect :=
  let options := ev.context.options
  let response := jsLower (jsTrim input)
  let byNumber :=
    match parseIndexSel response with
    | some n => if 1 ≤ n ∧ n ≤ options.length then some (options.getD (n - 1) "") else none
    | none => none
  match byNumber with
  | some selected =>
    executeWithClarification (clearDialogueState st) ev.context.action selected ev.context
  | none =>
    match options.find? (fun opt => jsLower opt = response ∨ jsIncludes response (jsLower opt)) with
    | some selected =>
      executeWithClarification (clearDialogueState st) ev.context.action selected ev.context
    | none =>
      (st, [.out "Invalid selection. Please choose from the options above." "error"])

/-- `handleYesNo` (lines 352-370). -/
def handleYesNo (st : EngineState) (input : String) (ev : DialogueEvent) :
    EngineState × List Effect :=
  let response := jsLower (jsTrim input)
  if response = "yes" ∨ response = "y" then
    (clearDialogueState st,
     match ev.context.onConfirm with
     | some cb => [.yesNoCallback cb]
     | none => [])
  else if response = "no" ∨ response = "n" then
    (clearDialogueState st,
     match ev.context.onCancel with
     | some cb => [.yesNoCallback cb]
     | none => [.out "Action cancelled." "system"])
  else
    (st, [.out "Please answer yes or no." "error"])

/-- `handleDialogueResponse` (lines 230-263).  The reserved cancellation
keywords are checked before the event is even read; then the input is routed
by dialogue kind; an unrecognized kind clears the state defensively. -/
def handleDialogueResponse (npcs : Option (List (String × String)))
    (st : EngineState) (input : String) :
    Except String (EngineState × List Effect) :=
  let trimmedInput := jsLower (jsTrim input)
  if trimmedInput = "cancel" ∨ trimmedInput = "quit" ∨ trimmedInput = "exit" then
    .ok (clearDialogueState st, [.out "Action cancelled." "system"])
  else
    match st.pendingEvent with
    | none => .error "TypeError: cannot read property type of null"
    | some event =>
      match event.type with
      | "incomplete_command" => handleIncompleteCommand npcs st input event
      | "confirmation" => .ok (handleConfirmation st input event)
      | "clarification" => .ok (handleClarification st input event)
      | "yes_no" => .ok (handleYesNo st input event)
      | other =>
        .ok (clearDialogueState st,
             [.out ("Unknown dialogue type: " ++ other) "error"])

/-- The actions having a `case` in the `processCommand` switch besides
`move`, `look` and `unknown`. -/
def switchActions : List String :=
  ["talk", "examine", "schedule", "work", "sleep", "eat", "loan", "apply",
   "promote", "careerinfo", "buy", "setprice", "hirestaff", "firestaff",
   "setstaff", "setmarketing", "upgradequality", "runmarketing",
   "businessinfo", "help", "inventory", "jobs", "stats", "save", "load"]

/-- The command-routing switch of `processCommand` (lines 126-215). -/
def routeCommand (st : EngineState) (input : String) (command : LegacyCommand) :
    EngineState × List Effect :=
  match command.action with
  | "move" => handleMovement st command
  | "look" => (st, [.describe st.currentLocation])
  | "unknown" =>
    (st, [.out ("I don't understand \"" ++ input ++ "\". Try 'help' for available commands.")
           "error"])
  | a => if switchActions.contains a then (st, [.handler a command]) else (st, [])

/-- `processCommand` (lines 111-222): record the input, echo it, route to
the active dialogue state if one exists, otherwise parse and dispatch. -/
def processCommand (npcs : Option (List (String × String)))
    (st : EngineState) (input : String) :
    Except String (EngineState × List Effect) :=
  if jsTrim input = "" then .ok (st, [])
  else
    let st := { st with commandHistory := st.commandHistory ++ [input] }
    let echo := [Effect.out ("> " ++ input) "system", Effect.out "" "description"]
    if st.pendingEvent.isSome then
      (handleDialogueResponse npcs st input).map fun r => (r.1, echo ++ r.2)
    else do
      let (command, rec') ← parse docLocs npcs st.recognizer (some input)
      let r := routeCommand { st with recognizer := rec' } input command
      pure (r.1, echo ++ r.2)

/-- The commands a trace handed to the movement handler, with their resolved
targets. -/
def moveDispatches (effs : List Effect) : List (String × Option String) :=
  effs.filterMap fun e =>
    match e with
    | .dispatch a t => some (a, t)
    | _ => none

/-- All simulation dispatches of a trace (movement, other handlers,
confirmed actions and yes/no callbacks). -/
def dispatchCount (effs : List Effect) : Nat :=
  (effs.filter Effect.dispatches).length

end LifeParser.GameEngine

namespace LifeParser

open LifeParser.IntentRecognizer LifeParser.EntityExtractor LifeParser.NLPParser
open LifeParser.GameEngine

/-! ## Supporting lemmas -/

/-- Entity kinds that are not `entityTypes` keys (`duration`, `item`,
`business`) are never extracted: `extractEntityType` bails out before
reaching their dead branches. -/
theorem extractEntityType_dead_kind (input : String) (ctx : Context) :
    extractEntityType input "duration" ctx = none
    ∧ extractEntityType input "item" ctx = none
    ∧ extractEntityType input "business" ctx = none := by
  refine ⟨rfl, rfl, rfl⟩

/-- Every candidate confidence produced by `calculateIntentScores` is capped
at 1 by the `Math.min(…, 1.0)` in the scoring formula. -/
theorem calculateIntentScores_le_one (intents : List (String × IntentData))
    (input : String) :
    ∀ e ∈ calculateIntentScores intents input, e.2 ≤ 1 := by
  intro e he
  unfold calculateIntentScores at he
  rw [List.mem_filterMap] at he
  obtain ⟨a, _, hfa⟩ := he
  simp only at hfa
  split at hfa
  · simp only [Option.some.injEq] at hfa
    subst hfa
    exact min_le_right _ _
  · exact absurd hfa (by simp)

/-- A best intent returned by `getBestIntent` is one of the scored
candidates. -/
theorem getBestIntent_mem (scores : List (String × Rat)) (b : String × Rat)
    (h : getBestIntent scores = some b) : b ∈ scores := by
  unfold getBestIntent at h
  suffices H : ∀ (l : List (String × Rat)) (acc : Option (String × Rat)) (b : String × Rat),
      l.foldl (fun best e =>
        match best with
        | none => if e.2 > 0 then some e else none
        | some bb => if e.2 > bb.2 then some e else best) acc = some b →
      b ∈ l ∨ acc = some b by
    rcases H scores none b h with hmem | habs
    · exact hmem
    · exact absurd habs (by simp)
  intro l
  induction l with
  | nil => intro acc b h; right; exact h
  | cons x xs ih =>
    intro acc b h
    rcases ih _ b h with hmem | hacc
    · left; exact List.mem_cons_of_mem _ hmem
    · match acc with
      | none =>
        simp only at hacc
        split at hacc
        · left; cases hacc; exact List.mem_cons_self _ _
        · exact absurd hacc (by simp)
      | some a =>
        simp only at hacc
        split at hacc
        · left; cases hacc; exact List.mem_cons_self _ _
        · right; exact hacc

/-- A just-logged input is in the unknown-input log. -/
theorem mem_logUnknownList (l : List String) (x : String) :
    x ∈ logUnknownList l x := by
  unfold logUnknownList
  split
  · exact List.mem_of_elem_eq_true (by assumption)
  · split
    · next hlen =>
      have hne : l ≠ [] := by
        intro h; subst h; simp [maxUnknownLog] at hlen
      match l, hne with
      | a :: l', _ => simp
    · simp

/-- One logging step keeps the log within capacity. -/
theorem logUnknownList_length (l : List String) (x : String)
    (h : l.length ≤ maxUnknownLog) :
    (logUnknownList l x).length ≤ maxUnknownLog := by
  unfold logUnknownList
  split
  · exact h
  · split
    · next hlen =>
      simp only [List.length_tail, List.length_append, List.length_singleton]
      omega
    · next hlen =>
      simp only [List.length_append, List.length_singleton] at *
      omega

/-! ## C4 — amount extraction -/

set_option maxRecDepth 8000

/-- C4: the amount extractor maps `"$5,000"` and `"5000"` to 5000 as the
claim states, but maps `"5k"` to 5 and `"2m"` to 2: the plain/comma-grouped
number pattern is scanned first and its match (the bare digits of `"5k"` /
`"2m"`) precedes every `k`/`m`-suffixed match in the collected list, and the
first collected positive value wins.  This contradicts the claim (and
`src/INTENT_VOCABULARY.md`, which documents `10k` ↦ 10,000 and `1m` ↦
1,000,000), so the claim is recorded as a code bug with failing inputs
`"5k"` and `"2m"`. -/
theorem amount_extraction_c4 :
    extractAmount "$5,000" = some ⟨5000, 9/10⟩
    ∧ extractAmount "5000" = some ⟨5000, 9/10⟩
    ∧ extractAmount "5k" = some ⟨5, 9/10⟩
    ∧ extractAmount "2m" = some ⟨2, 9/10⟩ := by
  refine ⟨?_, ?_, ?_, ?_⟩ <;> with_unfolding_all rfl

/-! ## C3 — the parse pipeline throws on `eat` -/

/-- C3: the claim says no input is fatal, but the full pipeline throws on
the input `"eat"`: it classifies as the `eat` intent (confidence 0.57), and
the `eat` branch of `convertToLegacyFormat` dereferences the undeclared
identifiers `pattern` and `match` — leftovers of the removed regex-table
parser — raising a `ReferenceError` that propagates out of
`processCommand`.  Recorded as a code bug (the in-repo command reference
documents `eat` as a working command). -/
theorem parse_eat_throws_c3 :
    ∀ npcs : Option (List (String × String)),
      processCommand npcs ({} : EngineState) "eat" =
        .error "ReferenceError: pattern is not defined"
      ∧ parse docLocs npcs ({} : RecState) (some "eat") =
        .error "ReferenceError: pattern is not defined" := by
  intro npcs
  exact ⟨by with_unfolding_all rfl, by with_unfolding_all rfl⟩

/-! ## C8 — unknown-input log invariants -/

/-- C8: starting from the empty log, any sequence of logging operations
keeps at most 50 entries; logging a string already present (exact
comparison) leaves the log unchanged; and when the log is full a new entry
evicts the oldest (the list head, i.e. FIFO insertion order). -/
theorem unknown_log_c8 :
    (∀ ops : List String, (ops.foldl logUnknownList []).length ≤ 50)
    ∧ (∀ (l : List String) (x : String), x ∈ l → logUnknownList l x = l)
    ∧ (∀ (l : List String) (x : String), l.length = 50 → x ∉ l →
        logUnknownList l x = l.tail ++ [x]) := by
  refine ⟨?_, ?_, ?_⟩
  · intro ops
    suffices H : ∀ (ops : List String) (l : List String),
        l.length ≤ maxUnknownLog → (ops.foldl logUnknownList l).length ≤ maxUnknownLog by
      exact H ops [] (by simp [maxUnknownLog])
    intro ops
    induction ops with
    | nil => intro l h; exact h
    | cons x xs ih => intro l h; exact ih _ (logUnknownList_length l x h)
  · intro l x hx
    unfold logUnknownList
    rw [if_pos (by exact List.elem_eq_true_of_mem hx)]
  · intro l x hlen hx
    unfold logUnknownList
    rw [if_neg (by simpa using hx)]
    rw [if_pos (by simp [maxUnknownLog, hlen])]
    have hne : l ≠ [] := by intro h; subst h; simp at hlen
    match l, hne with
    | a :: l', _ => simp

/-- Witness for C8 at concrete inputs: a one-element history stays within
capacity; re-logging `"a"` into `["a"]` is the identity; logging `"b"` into
a full 50-entry log drops the oldest entry. -/
theorem unknown_log_c8_witness :
    ((["dup"].foldl logUnknownList []).length ≤ 50)
    ∧ logUnknownList ["a"] "a" = ["a"]
    ∧ logUnknownList (List.replicate 50 "a") "b" =
        (List.replicate 50 "a").tail ++ ["b"] :=
  ⟨unknown_log_c8.1 ["dup"],
   unknown_log_c8.2.1 ["a"] "a" (by decide),
   unknown_log_c8.2.2 (List.replicate 50 "a") "b" (by simp)
     (by simp)⟩

/-! ## C10 — `addIntent` validation and defaults -/

/-- C10: `addIntent` throws exactly when the name is missing (falsy), the
data object is missing, or its `keywords` field is absent / not an array;
because the throw precedes the table write, the vocabulary is unchanged in
every error case (the `.error` result carries no table).  A valid call
registers the intent with `patterns` and `entities` defaulting to `[]` and
`priority` defaulting to 5. -/
theorem addIntent_c10 :
    ∀ (tbl : List (String × IntentData)) (name : String)
      (dOpt : Option RawIntentData),
      ((name = "" ∨ dOpt = none ∨ ∃ d, dOpt = some d ∧ d.keywords = none) ↔
        ∃ e, addIntent tbl name dOpt = .error e)
      ∧ (∀ d kws, dOpt = some d → d.keywords = some kws → name ≠ "" →
          addIntent tbl name dOpt = .ok (setEntry tbl name
            ⟨kws, d.patterns.getD [], d.entities.getD [],
             match d.priority with
             | none => 5
             | some p => if p = 0 then 5 else p⟩)) := by
  intro tbl name dOpt
  refine ⟨⟨?_, ?_⟩, ?_⟩
  · rintro (h | h | ⟨d, hd, hk⟩)
    · exact ⟨"Intent name and data are required",
        by unfold addIntent; rw [if_pos (Or.inl h)]⟩
    · exact ⟨"Intent name and data are required",
        by unfold addIntent; rw [if_pos (Or.inr h)]⟩
    · subst hd
      by_cases hn : name = ""
      · exact ⟨"Intent name and data are required",
          by unfold addIntent; rw [if_pos (Or.inl hn)]⟩
      · refine ⟨"Intent must have keywords array", ?_⟩
        unfold addIntent
        rw [if_neg (by simp [hn])]
        simp [hk]
  · rintro ⟨e, he⟩
    by_cases hn : name = ""
    · exact Or.inl hn
    · match dOpt with
      | none => exact Or.inr (Or.inl rfl)
      | some d =>
        refine Or.inr (Or.inr ⟨d, rfl, ?_⟩)
        unfold addIntent at he
        rw [if_neg (by simp [hn])] at he
        rcases hkk : d.keywords with _ | kws
        · rfl
        · simp only [hkk] at he
          exact absurd he (by simp)
  · intro d kws hd hk hn
    subst hd
    unfold addIntent
    rw [if_neg (by simp [hn])]
    simp [hk]

/-- Witness for C10: a missing data object throws; a minimal valid call
registers `greet` with empty patterns/entities and priority 5. -/
theorem addIntent_c10_witness :
    (∃ e, addIntent [] "x" none = .error e)
    ∧ addIntent [] "greet" (some ⟨some ["hi"], none, none, none⟩) =
        .ok (setEntry [] "greet" ⟨["hi"], [], [], 5⟩) :=
  ⟨(addIntent_c10 [] "x" none).1.mp (Or.inr (Or.inl rfl)),
   (addIntent_c10 [] "greet" (some ⟨some ["hi"], none, none, none⟩)).2
     ⟨some ["hi"], none, none, none⟩ ["hi"] rfl rfl (by decide)⟩

/-! ## C5 — cancellation from any dialogue state -/

/-- C5: with any dialogue state active, an input whose trimmed lower-case
form is `cancel`, `quit` or `exit` clears the pending state, emits exactly
the cancellation notice, and dispatches nothing (the trace contains no
handler invocation, confirmed action or callback). -/
theorem dialogue_cancel_c5 :
    ∀ (npcs : Option (List (String × String))) (st : EngineState)
      (ev : DialogueEvent) (input : String),
      st.pendingEvent = some ev →
      (jsLower (jsTrim input) = "cancel" ∨ jsLower (jsTrim input) = "quit" ∨
        jsLower (jsTrim input) = "exit") →
      handleDialogueResponse npcs st input =
        .ok ({ st with pendingEvent := none },
             [Effect.out "Action cancelled." "system"])
      ∧ dispatchCount [Effect.out "Action cancelled." "system"] = 0 := by
  intro npcs st ev input _ hc
  refine ⟨?_, by decide⟩
  unfold handleDialogueResponse
  rw [if_pos hc]
  rfl

/-- Witness for C5: cancelling a concrete yes/no dialogue with the input
`" CANCEL "` (mixed case, padded). -/
theorem dialogue_cancel_c5_witness :
    handleDialogueResponse none
        { pendingEvent := some ⟨"yes_no", { onConfirm := some "apply_for_job" }, none⟩ }
        " CANCEL " =
      .ok ({ pendingEvent := none }, [Effect.out "Action cancelled." "system"])
    ∧ dispatchCount [Effect.out "Action cancelled." "system"] = 0 :=
  dialogue_cancel_c5 none
    { pendingEvent := some ⟨"yes_no", { onConfirm := some "apply_for_job" }, none⟩ }
    ⟨"yes_no", { onConfirm := some "apply_for_job" }, none⟩ " CANCEL " rfl
    (Or.inl (by with_unfolding_all rfl))

/-! ## C9 — invalid input never abandons a dialogue state -/

/-- The corrective message each dialogue kind re-prompts with. -/
def repromptMsg (t : String) : String :=
  if t = "clarification" then "Invalid selection. Please choose from the options above."
  else "Please answer yes or no."

/-- C9: while a confirmation, clarification or yes/no dialogue is active, an
input that is not a reserved cancellation keyword and does not match the
expected responses (yes/y or no/n for confirmation and yes/no; an in-range
1-based index or an option text match for clarification) leaves the engine
state — in particular the pending dialogue — unchanged, dispatches nothing,
and emits exactly the corrective re-prompt. -/
theorem dialogue_reprompt_c9 :
    ∀ (npcs : Option (List (String × String))) (st : EngineState)
      (ev : DialogueEvent) (input : String),
      st.pendingEvent = some ev →
      (ev.type = "confirmation" ∨ ev.type = "clarification" ∨ ev.type = "yes_no") →
      (jsLower (jsTrim input) ≠ "cancel" ∧ jsLower (jsTrim input) ≠ "quit" ∧
        jsLower (jsTrim input) ≠ "exit") →
      (ev.type = "confirmation" ∨ ev.type = "yes_no" →
        jsLower (jsTrim input) ≠ "yes" ∧ jsLower (jsTrim input) ≠ "y" ∧
        jsLower (jsTrim input) ≠ "no" ∧ jsLower (jsTrim input) ≠ "n") →
      (ev.type = "clarification" →
        (∀ n, parseIndexSel (jsLower (jsTrim input)) = some n →
          ¬(1 ≤ n ∧ n ≤ ev.context.options.length)) ∧
        (∀ opt ∈ ev.context.options,
          ¬(jsLower opt = jsLower (jsTrim input) ∨
            jsIncludes (jsLower (jsTrim input)) (jsLower opt)))) →
      handleDialogueResponse npcs st input =
        .ok (st, [Effect.out (repromptMsg ev.type) "error"])
      ∧ dispatchCount [Effect.out (repromptMsg ev.type) "error"] = 0 := by
  intro npcs st ev input hpe htype hnc hyn hclar
  refine ⟨?_, rfl⟩
  obtain ⟨t, ctxv, pr⟩ := ev
  simp only at hyn hclar ⊢
  rcases htype with ht | ht | ht <;> simp only at ht <;> subst ht
  · obtain ⟨h1, h2, h3, h4⟩ := hyn (Or.inl rfl)
    have hroute : handleDialogueResponse npcs st input =
        Except.ok (handleConfirmation st input ⟨"confirmation", ctxv, pr⟩) := by
      unfold handleDialogueResponse
      rw [if_neg (by push_neg; exact hnc), hpe]
      rfl
    rw [hroute]
    simp only [handleConfirmation]
    rw [if_neg (by push_neg; exact ⟨h1, h2⟩), if_neg (by push_neg; exact ⟨h3, h4⟩)]
    rfl
  · obtain ⟨hnum, htext⟩ := hclar rfl
    have hroute : handleDialogueResponse npcs st input =
        Except.ok (handleClarification st input ⟨"clarification", ctxv, pr⟩) := by
      unfold handleDialogueResponse
      rw [if_neg (by push_neg; exact hnc), hpe]
      rfl
    rw [hroute]
    simp only [handleClarification]
    have hbn : (match parseIndexSel (jsLower (jsTrim input)) with
        | some n => if 1 ≤ n ∧ n ≤ ctxv.options.length
            then some (ctxv.options.getD (n - 1) "") else none
        | none => none) = (none : Option String) := by
      rcases hps : parseIndexSel (jsLower (jsTrim input)) with _ | n
      · rfl
      · simp only
        rw [if_neg (hnum n hps)]
    rw [hbn]
    have hfind : ctxv.options.find? (fun opt =>
        jsLower opt = jsLower (jsTrim input) ∨
        jsIncludes (jsLower (jsTrim input)) (jsLower opt)) = none := by
      rw [List.find?_eq_none]
      intro opt hopt
      simpa using htext opt hopt
    rw [hfind]
    rfl
  · obtain ⟨h1, h2, h3, h4⟩ := hyn (Or.inr rfl)
    have hroute : handleDialogueResponse npcs st input =
        Except.ok (handleYesNo st input ⟨"yes_no", ctxv, pr⟩) := by
      unfold handleDialogueResponse
      rw [if_neg (by push_neg; exact hnc), hpe]
      rfl
    rw [hroute]
    simp only [handleYesNo]
    rw [if_neg (by push_neg; exact ⟨h1, h2⟩), if_neg (by push_neg; exact ⟨h3, h4⟩)]
    rfl

/-- Witness for C9: the input `"maybe"` in a concrete clarification dialogue
with options `["owner", "barista"]` re-prompts and keeps the state. -/
theorem dialogue_reprompt_c9_witness :
    handleDialogueResponse none
        { pendingEvent := some ⟨"clarification",
            { action := "talk", options := ["owner", "barista"] }, none⟩ }
        "maybe" =
      .ok ({ pendingEvent := some ⟨"clarification",
               { action := "talk", options := ["owner", "barista"] }, none⟩ },
           [Effect.out (repromptMsg "clarification") "error"])
    ∧ dispatchCount [Effect.out (repromptMsg "clarification") "error"] = 0 :=
  dialogue_reprompt_c9 none
    { pendingEvent := some ⟨"clarification",
        { action := "talk", options := ["owner", "barista"] }, none⟩ }
    ⟨"clarification", { action := "talk", options := ["owner", "barista"] }, none⟩
    "maybe" rfl (Or.inr (Or.inl rfl))
    (by refine ⟨?_, ?_, ?_⟩ <;> with_unfolding_all decide)
    (fun h => by cases h <;> contradiction)
    (fun _ => And.intro
      (fun n hn => by
        have hnone : parseIndexSel (jsLower (jsTrim "maybe")) = none := by
          with_unfolding_all rfl
        rw [hnone] at hn
        cases hn)
      (by intro opt hopt; fin_cases hopt <;> with_unfolding_all decide))

/-! ## C6 — sub-threshold classification yields `unknown` and is logged -/

/-- C6: for any recognizer state and context, a non-empty input whose best
candidate scores strictly below 0.3 — or that has no candidate at all —
makes `recognize` return intent `"unknown"` with confidence 0 and no
entities, and appends the raw input to the unknown-input log (deduplicated:
afterwards the input is in the log either way). -/
theorem unknown_below_threshold_c6 :
    ∀ (st : RecState) (ctx : Context) (s : String),
      jsLower (jsTrim s) ≠ "" →
      (∀ b, getBestIntent (calculateIntentScores st.intents (jsLower (jsTrim s))) =
          some b → b.2 < 3/10) →
      recognize st (some s) ctx = (⟨"unknown", [], s, 0⟩, logUnknownIntent st s)
      ∧ s ∈ (logUnknownIntent st s).unknownIntents := by
  intro st ctx s hne hlow
  refine ⟨?_, by simp only [logUnknownIntent]; exact mem_logUnknownList _ _⟩
  simp only [recognize]
  rw [if_neg hne]
  rcases hb : getBestIntent (calculateIntentScores st.intents (jsLower (jsTrim s)))
    with _ | b
  · rfl
  · simp only
    rw [if_pos (hlow b hb)]

/-- Witness for C6 at the spec's own scenario input `"juggle the oranges"`:
its only candidate (`examine`, via the pattern `the`) scores 4/25 < 0.3,
so the result is `unknown`/0 and the string is logged. -/
theorem unknown_below_threshold_c6_witness :
    recognize ({} : RecState) (some "juggle the oranges") ({} : Context) =
      (⟨"unknown", [], "juggle the oranges", 0⟩,
        logUnknownIntent {} "juggle the oranges")
    ∧ "juggle the oranges" ∈
        (logUnknownIntent ({} : RecState) "juggle the oranges").unknownIntents :=
  unknown_below_threshold_c6 {} {} "juggle the oranges"
    (by with_unfolding_all decide)
    (fun b hb => by
      have hval : getBestIntent (calculateIntentScores ({} : RecState).intents
          (jsLower (jsTrim "juggle the oranges"))) = some ("examine", 4/25) := by
        with_unfolding_all rfl
      rw [hval] at hb
      cases hb
      with_unfolding_all decide)

/-! ## C7 — confidence is always in [0, 1] -/

/-- C7: for every recognizer state (hence after any sequence of `addIntent`
registrations, with arbitrary priorities), every input — string or not,
empty or not — and every context, the confidence of the recognition result
lies in [0, 1]: unknown results carry 0, and any accepted best candidate is
capped at 1 by the scoring formula and at least 0.3 by the acceptance
test. -/
theorem confidence_bounds_c7 :
    ∀ (st : RecState) (input : Option String) (ctx : Context),
      0 ≤ (recognize st input ctx).1.confidence ∧
      (recognize st input ctx).1.confidence ≤ 1 := by
  intro st input ctx
  rcases input with _ | s
  · exact ⟨le_refl 0, by show (0 : Rat) ≤ 1; norm_num⟩
  · simp only [recognize]
    by_cases hne : jsLower (jsTrim s) = ""
    · rw [if_pos hne]
      exact ⟨le_refl 0, by norm_num⟩
    · rw [if_neg hne]
      rcases hb : getBestIntent (calculateIntentScores st.intents (jsLower (jsTrim s)))
        with _ | b
      · exact ⟨le_refl 0, by norm_num⟩
      · simp only
        by_cases hlt : b.2 < 3/10
        · rw [if_pos hlt]
          exact ⟨le_refl 0, by norm_num⟩
        · rw [if_neg hlt]
          have hge : (3/10 : Rat) ≤ b.2 := not_lt.mp hlt
          refine ⟨le_trans (by norm_num) hge, ?_⟩
          exact calculateIntentScores_le_one st.intents (jsLower (jsTrim s)) b
            (getBestIntent_mem _ b hb)

/-! ## C1 — single-token keyword inputs -/

/-- C1 counterexample: `"sleep"` is a single-token input that is a declared
keyword of the registered intent `sleep`, yet `recognize` returns it with
confidence 0.57 < 0.9: the exact-match confidence 0.95 is still multiplied
by `priority/10 = 6/10`.  The claim's `confidence ≥ 0.9` therefore fails as
stated. -/
theorem single_keyword_c1_counterexample :
    splitWs "sleep" = ["sleep"]
    ∧ ((defaultIntents.find? (·.1 = "sleep")).map
        (fun kv => kv.2.keywords.contains "sleep")) = some true
    ∧ (recognize {} (some "sleep") {}).1.intent = "sleep"
    ∧ (recognize {} (some "sleep") {}).1.confidence = 57/100
    ∧ ¬ ((9/10 : Rat) ≤ (recognize {} (some "sleep") {}).1.confidence) := by
  refine ⟨?_, ?_, ?_, ?_, ?_⟩ <;> with_unfolding_all decide

/-- C1 as amended: for a single-whitespace-token input that is a declared
keyword of a registered intent I, the classifier assigns I the candidate
confidence `min(0.95 · priority(I)/10, 1)` — the exact-single-word special
case, scaled by priority.  This is ≥ 0.9 when I has priority 10 (as the
spec's formula in §4.1 implies), and `recognize` then returns I whenever
that value is the strict maximum among candidates and ≥ 0.3. -/
theorem single_keyword_score_c1 :
    ∀ (intents : List (String × IntentData)) (name : String) (d : IntentData)
      (input : String),
      (name, d) ∈ intents →
      splitWs input = [input] →
      d.keywords.contains input = true →
      ((name, min ((95/100 : Rat) * (d.priority / 10)) 1) ∈
          calculateIntentScores intents input)
      ∧ (d.priority = 10 → (9/10 : Rat) ≤ min ((95/100 : Rat) * (d.priority / 10)) 1) := by
  intro intents name d input hmem hsplit hkw
  have hmemkw : input ∈ d.keywords := by
    simpa using hkw
  constructor
  · unfold calculateIntentScores
    rw [List.mem_filterMap]
    refine ⟨(name, d), hmem, ?_⟩
    simp only [hsplit]
    have hkwMem : input ∈ d.keywords.filter
        (fun k => [input].contains k || jsIncludes input k) := by
      refine List.mem_filter.mpr ⟨hmemkw, ?_⟩
      simp
    rw [if_pos ?hpos]
    case hpos =>
      have := List.length_pos_of_mem hkwMem
      omega
    have hhead : ([input].headD "" : String) = input := rfl
    rw [hhead, if_pos hkw, if_pos ⟨rfl, hkw⟩]
  · intro hp
    rw [hp]
    norm_num

/-- Witness for the amended C1: the single token `"save"` is a keyword of
the priority-10 intent `save`, which receives candidate confidence
0.95 ≥ 0.9. -/
theorem single_keyword_score_c1_witness :
    (("save", min ((95/100 : Rat) * ((10 : Rat) / 10)) 1) ∈
        calculateIntentScores defaultIntents "save")
    ∧ (9/10 : Rat) ≤ min ((95/100 : Rat) * ((10 : Rat) / 10)) 1 :=
  ⟨(single_keyword_score_c1 defaultIntents "save" ⟨["save"], ["game"], [], 10⟩ "save"
      (by with_unfolding_all decide) (by with_unfolding_all decide)
      (by with_unfolding_all decide)).1,
   (single_keyword_score_c1 defaultIntents "save" ⟨["save"], ["game"], [], 10⟩ "save"
      (by with_unfolding_all decide) (by with_unfolding_all decide)
      (by with_unfolding_all decide)).2 rfl⟩

/-! ## C2 — dialogue round-trip equivalence -/

/-- C2: from the initial engine state (at home, no pending dialogue) and for
any NPC table, processing `"go to cafe"` in one turn hands the movement
handler exactly one canonical command — action `move`, resolved target
`cafe`; processing `"go to"` dispatches nothing and opens an
`incomplete_command` dialogue; and processing `"cafe"` on the following
turn hands the movement handler the same single canonical command
(`move` / resolved target `cafe`) as the one-turn run. -/
theorem dialogue_roundtrip_c2 :
    ∀ npcs : Option (List (String × String)),
      ((processCommand npcs ({} : EngineState) "go to cafe").map
          (fun r => moveDispatches r.2)) = .ok [("move", some "cafe")]
      ∧ ((processCommand npcs ({} : EngineState) "go to").map
          (fun r => (r.1.pendingEvent.map (·.type), moveDispatches r.2, dispatchCount r.2)))
          = .ok (some "incomplete_command", [], 0)
      ∧ (((processCommand npcs ({} : EngineState) "go to").bind
            (fun r => processCommand npcs r.1 "cafe")).map
          (fun r => moveDispatches r.2)) = .ok [("move", some "cafe")] := by
  intro npcs
  refine ⟨?_, ?_, ?_⟩ <;> with_unfolding_all rfl

end LifeParser
